import Mathlib

/-!
Shallow embedding of `src/scripts/mta_import_core_partridge.py` (the GTFS
canonicalization core: row normalizers, station clusterer, route merger,
route-stop sequencer, mode aggregation and the sink transaction structure),
with theorems checking the natural-language specification against it.

Modelling conventions:
* A tabular cell (`Any` in the Python source) is `Value`: either a null
  (Python `None` / pandas `NaN`, both of which `normalize_text` maps to `""`)
  or a string.  Non-string non-null cells behave through `str(value)`, so
  their string image is what matters to every function modelled here.
* Python `dict`s are association lists with in-place update on existing keys
  and append for fresh keys (CPython's insertion-order semantics); Python
  `set`s are duplicate-free lists with append-if-absent insertion.
* Python `float(str)` is modelled exactly on its accepted grammar (sign,
  `inf`/`infinity`/`nan` case-insensitively, decimal literals with optional
  fraction, exponent and digit-group underscores); a finite value is kept as
  its exact decimal form, sign × mantissa × 10^exponent (IEEE-754 rounding of
  in-range values is abstracted away — no claim below depends on it), and
  literals at or beyond the IEEE double rounding boundary 2^1024 - 2^970
  overflow to infinity as in CPython.
* String primitives (strip, upper, lower, lexicographic comparison by code
  point) are given list-of-characters implementations equivalent to the ASCII
  behaviour of their Python counterparts.
* Code that can raise is `Except String`-valued; an uncaught Python exception
  is `Except.error`.
-/

namespace MtaImport

/-- Cell value of a feed table: null (None/NaN) or the string image of the cell. -/
inductive Value where
  | null : Value
  | str (s : String) : Value
deriving DecidableEq

/-- Whitespace stripped by Python `str.strip()` (ASCII range). -/
def isPySpace (c : Char) : Bool :=
  c = ' ' ∨ c = '\t' ∨ c = '\n' ∨ c = '\x0d' ∨ c = '\x0b' ∨ c = '\x0c'

/-- Python `str.strip()`. -/
def pyStrip (s : String) : String :=
  ⟨((s.data.dropWhile isPySpace).reverse.dropWhile isPySpace).reverse⟩

/-- Python `str.upper()` on ASCII letters. -/
def pyUpperChar (c : Char) : Char :=
  if 97 ≤ c.toNat ∧ c.toNat ≤ 122 then Char.ofNat (c.toNat - 32) else c

/-- Python `str.lower()` on ASCII letters. -/
def pyLowerChar (c : Char) : Char :=
  if 65 ≤ c.toNat ∧ c.toNat ≤ 90 then Char.ofNat (c.toNat + 32) else c

/-- Uppercased string. -/
def pyUpper (s : String) : String := ⟨s.data.map pyUpperChar⟩

/-- Lowercased string. -/
def pyLower (s : String) : String := ⟨s.data.map pyLowerChar⟩

/-- Python string `<`: lexicographic by code point. -/
def strLtB : List Char → List Char → Bool
  | [], [] => false
  | [], _ :: _ => true
  | _ :: _, [] => false
  | a :: as, b :: bs =>
      if a.toNat < b.toNat then true
      else if b.toNat < a.toNat then false
      else strLtB as bs

/-- Python string `<=`. -/
def pyStrLeB (a b : String) : Bool := strLtB a.data b.data || decide (a = b)

/-- Embeds `normalize_text`: null/NaN to the empty string, else the stripped string. -/
def normalize_text : Value → String
  | .null => ""
  | .str s => pyStrip s

/-- Embeds `normalize_optional_text`: `normalized or None`. -/
def normalize_optional_text (v : Value) : Option String :=
  let n := normalize_text v
  if n = "" then none else some n

/-- Embeds `normalize_route_id`: normalized text, uppercased. -/
def normalize_route_id (v : Value) : String :=
  pyUpper (normalize_text v)

/-- Result of CPython `float(str)`: a finite value in exact decimal form
(value = (-1)^neg × m × 10^ex), a signed infinity, or NaN. -/
inductive PyFloat where
  | finite (neg : Bool) (m : Nat) (ex : Int) : PyFloat
  | infty (neg : Bool) : PyFloat
  | nan : PyFloat
deriving DecidableEq

/-- Numeric value of a list of decimal digit characters. -/
def digitsVal (ds : List Char) : Nat :=
  ds.foldl (fun n c => 10 * n + (c.toNat - 48)) 0

/-- Consumes a maximal Python digit group `digit (_? digit)*`, returning the
digits (underscores dropped) and the unconsumed rest.  An underscore must sit
between two digits, as in CPython's float grammar. -/
def dgAux : List Char → List Char × List Char
  | '_' :: c :: rest =>
      if c.isDigit then
        let p := dgAux rest
        (c :: p.1, p.2)
      else ([], '_' :: c :: rest)
  | c :: rest =>
      if c.isDigit then
        let p := dgAux rest
        (c :: p.1, p.2)
      else ([], c :: rest)
  | [] => ([], [])

/-- A digit group must begin with a digit. -/
def parseDigitGroup (l : List Char) : Option (List Char × List Char) :=
  match l with
  | c :: _ => if c.isDigit then some (dgAux l) else none
  | [] => none

/-- Exponent part after `e`: optional sign then a digit group consuming the rest. -/
def parseExp (l : List Char) : Option Int :=
  match l with
  | '+' :: r =>
      (parseDigitGroup r).bind fun p =>
        if p.2 = [] then some (digitsVal p.1 : Int) else none
  | '-' :: r =>
      (parseDigitGroup r).bind fun p =>
        if p.2 = [] then some (-(digitsVal p.1 : Int)) else none
  | r =>
      (parseDigitGroup r).bind fun p =>
        if p.2 = [] then some (digitsVal p.1 : Int) else none

/-- Mantissa of a decimal float literal: `digits [. [digits]]` or `. digits`.
Returns the concatenated digits' value, the number of fraction digits, and the
unconsumed rest. -/
def parseMantissa : List Char → Option (Nat × Nat × List Char)
  | '.' :: r =>
      (parseDigitGroup r).map fun p => (digitsVal p.1, p.1.length, p.2)
  | l =>
      (parseDigitGroup l).bind fun p =>
        match p.2 with
        | '.' :: r2 =>
            match parseDigitGroup r2 with
            | some q => some (digitsVal (p.1 ++ q.1), q.1.length, q.2)
            | none => some (digitsVal p.1, 0, r2)
        | rest => some (digitsVal p.1, 0, rest)

/-- Mantissa and decimal exponent of an unsigned float literal (already
lowercased): value = m × 10^ex. -/
def parseNumber (l : List Char) : Option (Nat × Int) :=
  (parseMantissa l).bind fun m =>
    let e : Option Int :=
      match m.2.2 with
      | [] => some 0
      | 'e' :: r => parseExp r
      | _ => none
    e.map fun ex => (m.1, ex - (m.2.1 : Int))

/-- The IEEE double rounding boundary 2^1024 - 2^970 (the smallest magnitude
rounding above the largest finite double), written out as a literal so that
evaluation never has to unfold a large exponentiation. -/
def doubleOverflowBound : Nat :=
  179769313486231580793728971405303415079934132710037826936173778980444968292764750946649017977587207096330286416692887910946555547851940402630657488671505820681908902000708383676273854845817711531764475730270069855571366959622842914819860834936475292719074168444365510704342711559699508093042880177904174497792

/-- Magnitude of m × 10^ex is at least the IEEE double rounding boundary, in
which case CPython's `float` yields an infinity.  Stated over integers: for a
negative exponent the comparison is scaled by the power of ten. -/
def isOverflow (m : Nat) (ex : Int) : Bool :=
  match ex with
  | .ofNat k => doubleOverflowBound ≤ m * 10 ^ k
  | .negSucc k => doubleOverflowBound * 10 ^ (k + 1) ≤ m

/-- Embeds CPython `float(s)` on an already-stripped string: `none` is a
`ValueError`; otherwise the parsed float. -/
def pyFloatOfString (s : String) : Option PyFloat :=
  let l := (pyLower s).data
  let sgn : Bool × List Char :=
    match l with
    | '+' :: r => (false, r)
    | '-' :: r => (true, r)
    | r => (false, r)
  if sgn.2 = ('i' :: 'n' :: 'f' :: []) ∨
     sgn.2 = ('i' :: 'n' :: 'f' :: 'i' :: 'n' :: 'i' :: 't' :: 'y' :: []) then
    some (.infty sgn.1)
  else if sgn.2 = ('n' :: 'a' :: 'n' :: []) then
    some .nan
  else
    (parseNumber sgn.2).map fun p =>
      if isOverflow p.1 p.2 then .infty sgn.1
      else .finite sgn.1 p.1 p.2

/-- Magnitude of CPython `int()` applied to the finite float m × 10^ex:
multiply out a nonnegative exponent, truncate by integer division for a
negative one. -/
def decTruncMag (m : Nat) (ex : Int) : Nat :=
  match ex with
  | .ofNat k => m * 10 ^ k
  | .negSucc k => m / 10 ^ (k + 1)

/-- Embeds CPython `int()` on a finite float value: truncation toward zero. -/
def pyIntOfFinite (neg : Bool) (m : Nat) (ex : Int) : Int :=
  if neg then -(decTruncMag m ex : Int) else (decTruncMag m ex : Int)

/-- Core of `parse_int_or_none` on the normalized string.  The Python source
wraps `int(float(normalized))` in `except ValueError` only: a failed `float`
parse and `int(nan)` both raise `ValueError` and are caught, but `int` of an
infinite float raises `OverflowError`, which escapes. -/
def parse_int_str (normalized : String) : Except String (Option Int) :=
  if normalized = "" then .ok none
  else
    match pyFloatOfString normalized with
    | none => .ok none
    | some .nan => .ok none
    | some (.infty _) => .error "OverflowError: cannot convert float infinity to integer"
    | some (.finite neg m ex) => .ok (some (pyIntOfFinite neg m ex))

/-- Embeds `parse_int_or_none`. -/
def parse_int_or_none (v : Value) : Except String (Option Int) :=
  parse_int_str (normalize_text v)

/-- Embeds `parse_direction_id`: blank to 0, `N` to 0, `S` to 1, else the
integer parse when it lands in {0,1}, else 0.  Inherits `parse_int_or_none`'s
uncaught `OverflowError`. -/
def parse_direction_id (v : Value) : Except String Int := do
  let raw := pyUpper (normalize_text v)
  if raw = "" then return 0
  else if raw = "N" then return 0
  else if raw = "S" then return 1
  else
    let parsed ← parse_int_str raw
    match parsed with
    | some 0 => return 0
    | some 1 => return 1
    | _ => return 0

/-- Embeds `parse_numeric_or_none`: the normalized string itself when it parses
as a Python float (`float(normalized)` alone never raises past the caught
`ValueError`), else absent. -/
def parse_numeric_or_none (v : Value) : Option String :=
  let normalized := normalize_text v
  if normalized = "" then none
  else
    match pyFloatOfString normalized with
    | none => none
    | some _ => some normalized

/-! ### Python dict / set model -/

/-- Python dict write `m[k] = v`: update in place when the key exists
(CPython keeps the original position), else append. -/
def dinsert {α β : Type} [DecidableEq α] (k : α) (v : β) : List (α × β) → List (α × β)
  | [] => [(k, v)]
  | e :: rest => if e.1 = k then (k, v) :: rest else e :: dinsert k v rest

/-- Python dict read `m.get(k)`. -/
def dget {α β : Type} [DecidableEq α] (k : α) : List (α × β) → Option β
  | [] => none
  | e :: rest => if e.1 = k then some e.2 else dget k rest

/-- Python set insertion `s.add(a)`: only membership, distinct-count and the
sorted view of the set are ever consumed, so append-if-absent is faithful. -/
def insertSet {α : Type} [DecidableEq α] (a : α) (l : List α) : List α :=
  if a ∈ l then l else l ++ [a]

/-! ### Station clusterer (`process_mode`, stops loop) -/

/-- One entry of `station_map`. -/
structure Station where
  stop_id : String
  stop_name : String
  stop_lat : Option String
  stop_lon : Option String
  parent_station : Option String
  child_stop_ids : List String
deriving DecidableEq

/-- The stops loop's mutable state: `station_map` (mode-wide) and
`raw_stop_to_station` (dataset-scoped). -/
structure StopState where
  station_map : List (String × Station)
  raw_stop_to_station : List (String × String)
deriving DecidableEq

/-- Embeds one iteration of the stops loop of `process_mode`: drop blank stop
ids; canonical station id is the raw id in bus mode, else the normalized
parent when non-blank, else the raw id; create the station on first sight,
else fill only still-empty fields; track the raw id as a child for non-bus
modes. -/
def processStopRow (mode : String) (st : StopState) (row_stop_id row_stop_name row_stop_lat row_stop_lon row_parent : Value) : StopState :=
  let raw_stop_id := normalize_text row_stop_id
  if raw_stop_id = "" then st
  else
    let normalized_name :=
      let n := normalize_text row_stop_name
      if n = "" then raw_stop_id else n
    let normalized_parent := normalize_text row_parent
    let station_id :=
      if mode = "bus" then raw_stop_id
      else if normalized_parent = "" then raw_stop_id else normalized_parent
    let r2s := dinsert raw_stop_id station_id st.raw_stop_to_station
    let station : Station :=
      match dget station_id st.station_map with
      | none =>
          { stop_id := station_id
            stop_name := normalized_name
            stop_lat := parse_numeric_or_none row_stop_lat
            stop_lon := parse_numeric_or_none row_stop_lon
            parent_station := if normalized_parent = "" then none else some normalized_parent
            child_stop_ids := [] }
      | some s =>
          { s with
            stop_name := if s.stop_name = "" ∨ s.stop_name = s.stop_id then normalized_name else s.stop_name
            stop_lat := if s.stop_lat = none then parse_numeric_or_none row_stop_lat else s.stop_lat
            stop_lon := if s.stop_lon = none then parse_numeric_or_none row_stop_lon else s.stop_lon }
    let station :=
      if mode = "bus" then station
      else { station with child_stop_ids := insertSet raw_stop_id station.child_stop_ids }
    { station_map := dinsert station_id station st.station_map
      raw_stop_to_station := r2s }

/-- One raw stops row. -/
structure StopRow where
  stop_id : Value
  stop_name : Value
  stop_lat : Value
  stop_lon : Value
  parent_station : Value
deriving DecidableEq

/-- The stops loop over a dataset's rows. -/
def processStops (mode : String) (st : StopState) (rows : List StopRow) : StopState :=
  rows.foldl (fun s r => processStopRow mode s r.stop_id r.stop_name r.stop_lat r.stop_lon r.parent_station) st

/-! ### Route merger (`process_mode`, routes loop) -/

/-- One entry of `route_map` (also the emitted route row: emission copies the
fields unchanged). -/
structure RouteRec where
  route_id : String
  agency_id : Option String
  route_short_name : String
  route_long_name : String
  route_desc : Option String
  route_type : Int
  route_url : Option String
  route_color : Option String
  route_text_color : Option String
  route_sort_order : Option Int
deriving DecidableEq

/-- One raw routes row. -/
structure RouteRow where
  route_id : Value
  agency_id : Value
  route_short_name : Value
  route_long_name : Value
  route_desc : Value
  route_type : Value
  route_url : Value
  route_color : Value
  route_text_color : Value
  route_sort_order : Value
deriving DecidableEq

/-- `MODE_DEFAULT_ROUTE_TYPE`; `process_mode` is only ever invoked with the
four keyed modes (see `main`), other strings are unreachable. -/
def modeDefaultRouteType (mode : String) : Int :=
  if mode = "subway" then 1
  else if mode = "bus" then 3
  else if mode = "lirr" then 2
  else if mode = "mnr" then 2
  else 0

/-- Python truthiness of an `Optional[str]`: falsy iff absent or empty. -/
def optFalsy : Option String → Bool
  | none => true
  | some s => s = ""

/-- Embeds the construction of the `incoming` route dict: `none` when the
normalized route id is blank (row dropped).  Note `route_type` is
`parse_int_or_none(...) or default`: a parsed 0 is falsy in Python and is
coerced to the mode default here, before any merge. -/
def routeIncoming (d : Int) (row : RouteRow) : Except String (Option RouteRec) := do
  let rid := normalize_route_id row.route_id
  if rid = "" then return none
  else
    let rt ← parse_int_or_none row.route_type
    let rso ← parse_int_or_none row.route_sort_order
    return some
      { route_id := rid
        agency_id := normalize_optional_text row.agency_id
        route_short_name := normalize_text row.route_short_name
        route_long_name := normalize_text row.route_long_name
        route_desc := normalize_optional_text row.route_desc
        route_type := match rt with
          | some n => if n = 0 then d else n
          | none => d
        route_url := normalize_optional_text row.route_url
        route_color := normalize_optional_text row.route_color
        route_text_color := normalize_optional_text row.route_text_color
        route_sort_order := rso }

/-- Embeds the merge branch of the routes loop (existing vs incoming under the
same normalized id): fill only falsy fields, except `route_type` (replaced
exactly when the existing value is the mode default and the incoming one is
not) and `route_sort_order` (compared with `is None`, so 0 is kept). -/
def mergeRoute (d : Int) (ex inc : RouteRec) : RouteRec :=
  { ex with
    agency_id := if optFalsy ex.agency_id ∧ ¬ optFalsy inc.agency_id then inc.agency_id else ex.agency_id
    route_short_name := if ex.route_short_name = "" ∧ inc.route_short_name ≠ "" then inc.route_short_name else ex.route_short_name
    route_long_name := if ex.route_long_name = "" ∧ inc.route_long_name ≠ "" then inc.route_long_name else ex.route_long_name
    route_desc := if optFalsy ex.route_desc ∧ ¬ optFalsy inc.route_desc then inc.route_desc else ex.route_desc
    route_type := if ex.route_type = d ∧ inc.route_type ≠ d then inc.route_type else ex.route_type
    route_url := if optFalsy ex.route_url ∧ ¬ optFalsy inc.route_url then inc.route_url else ex.route_url
    route_color := if optFalsy ex.route_color ∧ ¬ optFalsy inc.route_color then inc.route_color else ex.route_color
    route_text_color := if optFalsy ex.route_text_color ∧ ¬ optFalsy inc.route_text_color then inc.route_text_color else ex.route_text_color
    route_sort_order := if ex.route_sort_order = none ∧ inc.route_sort_order ≠ none then inc.route_sort_order else ex.route_sort_order }

/-- One iteration of the routes loop. -/
def processRouteRow (mode : String) (m : List (String × RouteRec)) (row : RouteRow) : Except String (List (String × RouteRec)) := do
  match ← routeIncoming (modeDefaultRouteType mode) row with
  | none => return m
  | some inc =>
      match dget inc.route_id m with
      | none => return dinsert inc.route_id inc m
      | some ex => return dinsert inc.route_id (mergeRoute (modeDefaultRouteType mode) ex inc) m

/-! ### Route-stop sequencer (`process_mode`, trips and stop-times loops) -/

/-- One raw trips row. -/
structure TripRow where
  trip_id : Value
  route_id : Value
  direction_id : Value
deriving DecidableEq

/-- One iteration of the trips loop: drop rows with blank trip or route id,
else record (route id, parsed direction) under the trip id. -/
def processTripRow (tm : List (String × String × Int)) (row : TripRow) : Except String (List (String × String × Int)) := do
  let tid := normalize_text row.trip_id
  let rid := normalize_route_id row.route_id
  if tid = "" ∨ rid = "" then return tm
  else
    let dir ← parse_direction_id row.direction_id
    return dinsert tid (rid, dir) tm

/-- One raw stop-times row. -/
structure StopTimeRow where
  trip_id : Value
  stop_id : Value
  stop_sequence : Value
deriving DecidableEq

/-- Read-only context of the stop-times loop. -/
structure SeqCtx where
  trip_map : List (String × String × Int)
  raw_stop_to_station : List (String × String)
  station_map : List (String × Station)
deriving DecidableEq

/-- Mutable state of the stop-times loop. -/
structure SeqState where
  route_stop_map : List ((String × Int × String) × Option Int)
  missing_trip_refs : Nat
  missing_stop_ids : List String
deriving DecidableEq

/-- Embeds lines 330-334: `existing = map.get(key)` flattens a stored null and
an absent key into the same `none`; a null incoming sequence never overwrites a
concrete stored one, a concrete incoming one replaces an unset one, and two
concrete values keep the minimum. -/
def updateSeq (existing nx : Option Int) : Option Int :=
  match existing, nx with
  | none, _ => nx
  | some e, some n => if n < e then some n else some e
  | some e, none => some e

/-- One iteration of the stop-times loop: skip blank ids silently; count a
missing trip reference; record a missing stop id; else fold the parsed
sequence into the assignment map with `updateSeq`. -/
def processStopTimeRow (ctx : SeqCtx) (st : SeqState) (row : StopTimeRow) : Except String SeqState := do
  let tid := normalize_text row.trip_id
  let raw_stop_id := normalize_text row.stop_id
  if tid = "" ∨ raw_stop_id = "" then return st
  else
    match dget tid ctx.trip_map with
    | none => return { st with missing_trip_refs := st.missing_trip_refs + 1 }
    | some rd =>
        let station_stop_id := (dget raw_stop_id ctx.raw_stop_to_station).getD raw_stop_id
        match dget station_stop_id ctx.station_map with
        | none => return { st with missing_stop_ids := insertSet raw_stop_id st.missing_stop_ids }
        | some _ =>
            let nx ← parse_int_or_none row.stop_sequence
            let key := (rd.1, rd.2, station_stop_id)
            return { st with
              route_stop_map := dinsert key (updateSeq ((dget key st.route_stop_map).join) nx) st.route_stop_map }

/-! ### Emission (`process_mode`, flattening and sorting) -/

/-- Python `sorted` over strings (lexicographic by code point).  Insertion
sort agrees with Python's stable ascending sort for a total preorder. -/
def sortStrings (l : List String) : List String :=
  l.insertionSort (fun a b => pyStrLeB a b = true)

/-- One emitted station row. -/
structure StationRow where
  stop_id : String
  stop_name : String
  stop_lat : Option String
  stop_lon : Option String
  parent_station : Option String
  child_stop_ids_json : List String
deriving DecidableEq

/-- Row emitted for one canonical station: bus mode always carries an empty
child list; other modes the sorted child set, defaulted to the station's own
id when empty. -/
def stationRowOf (mode : String) (s : Station) : StationRow :=
  { stop_id := s.stop_id
    stop_name := if s.stop_name = "" then s.stop_id else s.stop_name
    stop_lat := s.stop_lat
    stop_lon := s.stop_lon
    parent_station := s.parent_station
    child_stop_ids_json :=
      if mode = "bus" then []
      else
        let c := sortStrings s.child_stop_ids
        if c = [] then [s.stop_id] else c }

/-- `stations_rows`: station map values sorted by station id, then emitted. -/
def stations_rows (mode : String) (sm : List (String × Station)) : List StationRow :=
  ((sm.map Prod.snd).insertionSort (fun a b => pyStrLeB a.stop_id b.stop_id = true)).map
    (stationRowOf mode)

/-- `routes_rows`: route map values sorted by route id (fields pass through unchanged). -/
def routes_rows (rm : List (String × RouteRec)) : List RouteRec :=
  (rm.map Prod.snd).insertionSort (fun a b => pyStrLeB a.route_id b.route_id = true)

/-- Embeds `route_stop_sort_key`'s sequence component: an absent sequence is
replaced by the sentinel `2**31 - 1`. -/
def seqOrSentinel (q : Option Int) : Int := q.getD (2 ^ 31 - 1)

/-- Lexicographic comparison of `route_stop_sort_key` tuples
(route id, direction, sequence-or-sentinel, stop id). -/
def routeStopLE (a b : (String × Int × String) × Option Int) : Bool :=
  strLtB a.1.1.data b.1.1.data ||
    (decide (a.1.1 = b.1.1) &&
      (decide (a.1.2.1 < b.1.2.1) ||
        (decide (a.1.2.1 = b.1.2.1) &&
          (decide (seqOrSentinel a.2 < seqOrSentinel b.2) ||
            (decide (seqOrSentinel a.2 = seqOrSentinel b.2) &&
              pyStrLeB a.1.2.2 b.1.2.2)))))

/-- One emitted assignment row. -/
structure RouteStopRow where
  route_id : String
  direction_id : Int
  stop_id : String
  route_stop_sort_order : Option Int
deriving DecidableEq

/-- `route_stops_rows`: assignment map entries sorted by `route_stop_sort_key`. -/
def route_stops_rows_of (m : List ((String × Int × String) × Option Int)) : List RouteStopRow :=
  (m.insertionSort (fun a b => routeStopLE a b = true)).map fun e =>
    { route_id := e.1.1
      direction_id := e.1.2.1
      stop_id := e.1.2.2
      route_stop_sort_order := e.2 }

/-! ### Mode aggregation (`process_mode` as a whole) -/

/-- The maps and counters `process_mode` accumulates across its datasets. -/
structure ModeState where
  station_map : List (String × Station)
  route_map : List (String × RouteRec)
  route_stop_map : List ((String × Int × String) × Option Int)
  missing_trip_refs : Nat
  missing_stop_ids : List String
deriving DecidableEq

/-- One qualifying dataset directory's four tables. -/
structure Dataset where
  stops : List StopRow
  routes : List RouteRow
  trips : List TripRow
  stop_times : List StopTimeRow
deriving DecidableEq

/-- Initial state of `process_mode`. -/
def initModeState : ModeState := ⟨[], [], [], 0, []⟩

/-- One dataset directory's pass: stops, routes, trips, stop-times, in that
order.  `raw_stop_to_station` and `trip_map` are dataset-scoped and start
empty; the other maps and counters carry across datasets. -/
def processDataset (mode : String) (st : ModeState) (ds : Dataset) : Except String ModeState := do
  let sst := processStops mode ⟨st.station_map, []⟩ ds.stops
  let rm ← ds.routes.foldlM (processRouteRow mode) st.route_map
  let tm ← ds.trips.foldlM processTripRow []
  let ctx : SeqCtx := ⟨tm, sst.raw_stop_to_station, sst.station_map⟩
  let q ← ds.stop_times.foldlM (processStopTimeRow ctx)
    ⟨st.route_stop_map, st.missing_trip_refs, st.missing_stop_ids⟩
  return ⟨sst.station_map, rm, q.route_stop_map, q.missing_trip_refs, q.missing_stop_ids⟩

/-- The value `process_mode` returns: emitted rows, their counts, and the
per-mode warning report. -/
structure ModeResult where
  stations_rows : List StationRow
  routes_rows : List RouteRec
  route_stops_rows : List RouteStopRow
  count_stations : Nat
  count_routes : Nat
  count_routeStops : Nat
  warn_missingTripRefs : Nat
  warn_missingStopRefs : Nat
  warn_sampleMissingStopIds : List String
  missing_stop_ids : List String
deriving DecidableEq

/-- Flattening and reporting at the end of `process_mode`. -/
def emitResult (mode : String) (st : ModeState) : ModeResult :=
  let srows := stations_rows mode st.station_map
  let rrows := routes_rows st.route_map
  let rsrows := route_stops_rows_of st.route_stop_map
  { stations_rows := srows
    routes_rows := rrows
    route_stops_rows := rsrows
    count_stations := srows.length
    count_routes := rrows.length
    count_routeStops := rsrows.length
    warn_missingTripRefs := st.missing_trip_refs
    warn_missingStopRefs := st.missing_stop_ids.length
    warn_sampleMissingStopIds := (sortStrings st.missing_stop_ids).take 50
    missing_stop_ids := st.missing_stop_ids }

/-- Embeds `process_mode`. -/
def process_mode (mode : String) (datasets : List Dataset) : Except String ModeResult := do
  let st ← datasets.foldlM (processDataset mode) initModeState
  return emitResult mode st

/-! ### Sink transaction structure (`main`)

`main` opens a single `with conn:` block (one psycopg2 transaction, committed
on normal exit and rolled back whole on any exception) and inside it, with one
cursor, runs: the global `TRUNCATE` of all twelve tables, then the subway,
lirr and mnr bulk inserts, then one upsert per bus dataset.  Each sink write
is modelled as a state transformer on an abstract database state; a raised
exception is `Except.error`. -/

/-- Runs the writes of the transaction body in order, stopping at the first
failure (the exception propagates out of the `with conn:` block). -/
def runSteps {σ ε : Type} (db : σ) : List (σ → Except ε σ) → Except ε σ
  | [] => .ok db
  | f :: rest =>
      match f db with
      | .ok db2 => runSteps db2 rest
      | .error _e => .error _e

/-- psycopg2 `with conn:` semantics around the body: commit the final state on
success, roll the whole transaction back to the initial state on failure. -/
def importTransaction {σ ε : Type} (db : σ) (steps : List (σ → Except ε σ)) : σ :=
  match runSteps db steps with
  | .ok db2 => db2
  | .error _ => db

/-- The write sequence of `main`'s transaction body: clear all tables, insert
subway, lirr, mnr, then upsert each bus dataset. -/
def mainSteps {σ ε : Type} (clearAll wSubway wLirr wMnr : σ → Except ε σ)
    (wBus : List (σ → Except ε σ)) : List (σ → Except ε σ) :=
  clearAll :: wSubway :: wLirr :: wMnr :: wBus

/-- `main`'s database interaction: the whole write sequence inside one
transaction. -/
def mainRun {σ ε : Type} (db : σ) (clearAll wSubway wLirr wMnr : σ → Except ε σ)
    (wBus : List (σ → Except ε σ)) : σ :=
  importTransaction db (mainSteps clearAll wSubway wLirr wMnr wBus)

/-! ### C4: emission order of assignment rows -/

/-- Sequence comparison with an absent sequence treated as plus infinity,
strictly after every concrete value (the specification's reading). -/
def seqInfLTB : Option Int → Option Int → Bool
  | some a, some b => decide (a < b)
  | some _, none => true
  | none, _ => false

/-- The claimed emission order on emitted rows: ascending by (route id,
direction, sequence with absent strictly after every concrete value, stop id). -/
def rowSpecLE (r s : RouteStopRow) : Bool :=
  strLtB r.route_id.data s.route_id.data ||
    (decide (r.route_id = s.route_id) &&
      (decide (r.direction_id < s.direction_id) ||
        (decide (r.direction_id = s.direction_id) &&
          (seqInfLTB r.route_stop_sort_order s.route_stop_sort_order ||
            (decide (r.route_stop_sort_order = s.route_stop_sort_order) &&
              pyStrLeB r.stop_id s.stop_id)))))

/-- The code's emission order on emitted rows: ascending by (route id,
direction, sequence with absent replaced by the sentinel 2^31 - 1, stop id). -/
def rowSentinelLE (r s : RouteStopRow) : Bool :=
  strLtB r.route_id.data s.route_id.data ||
    (decide (r.route_id = s.route_id) &&
      (decide (r.direction_id < s.direction_id) ||
        (decide (r.direction_id = s.direction_id) &&
          (decide (seqOrSentinel r.route_stop_sort_order < seqOrSentinel s.route_stop_sort_order) ||
            (decide (seqOrSentinel r.route_stop_sort_order = seqOrSentinel s.route_stop_sort_order) &&
              pyStrLeB r.stop_id s.stop_id)))))

/-- Assignment map with one concrete sequence equal to the sentinel value and
one absent sequence on the same route and direction. -/
def c4Map : List ((String × Int × String) × Option Int) :=
  [(("A", 0, "B"), some 2147483647), (("A", 0, "A"), none)]

/-! ### Helper lemmas on the dict / set model -/

theorem dget_dinsert_self {α β : Type} [DecidableEq α] (k : α) (v : β) (m : List (α × β)) :
    dget k (dinsert k v m) = some v := by
  induction m with
  | nil => simp [dinsert, dget]
  | cons e rest ih =>
      by_cases h : e.1 = k
      · simp [dinsert, dget, h]
      · simp [dinsert, dget, h, ih]

theorem mem_insertSet_self {α : Type} [DecidableEq α] (a : α) (l : List α) :
    a ∈ insertSet a l := by
  unfold insertSet
  by_cases h : a ∈ l
  · simp [h]
  · simp [h]

theorem mem_insertSet_of_mem {α : Type} [DecidableEq α] (a b : α) (l : List α) (h : b ∈ l) :
    b ∈ insertSet a l := by
  unfold insertSet
  by_cases ha : a ∈ l <;> simp [ha, h]

theorem nodup_insertSet {α : Type} [DecidableEq α] (a : α) (l : List α) (h : l.Nodup) :
    (insertSet a l).Nodup := by
  unfold insertSet
  by_cases ha : a ∈ l
  · simpa [ha]
  · simp only [ha, if_false]
    exact List.Nodup.append h (List.nodup_singleton a) (by simpa using ha)

theorem dget_mem {α β : Type} [DecidableEq α] (k : α) (v : β) (m : List (α × β))
    (h : dget k m = some v) : (k, v) ∈ m := by
  induction m with
  | nil => simp [dget] at h
  | cons e rest ih =>
      by_cases he : e.1 = k
      · subst he
        simp only [dget, if_pos] at h
        cases h
        exact List.mem_cons_self _ _
      · simp only [dget, he, if_neg, not_false_iff] at h
        exact List.mem_cons_of_mem e (ih h)

theorem mem_dinsert {α β : Type} [DecidableEq α] (k : α) (v : β) (m : List (α × β)) (e : α × β)
    (h : e ∈ dinsert k v m) : e = (k, v) ∨ e ∈ m := by
  induction m with
  | nil => simpa [dinsert] using h
  | cons f rest ih =>
      by_cases hf : f.1 = k
      · simp only [dinsert, hf, if_pos, List.mem_cons] at h
        rcases h with h | h
        · exact Or.inl h
        · exact Or.inr (List.mem_cons_of_mem f h)
      · simp only [dinsert, hf, if_neg, not_false_iff, List.mem_cons] at h
        rcases h with h | h
        · exact Or.inr (by simp [h])
        · rcases ih h with h2 | h2
          · exact Or.inl h2
          · exact Or.inr (List.mem_cons_of_mem f h2)

theorem dinsert_key_mem {α β : Type} [DecidableEq α] (k : α) (v : β) (m : List (α × β)) (e : α × β)
    (h : e ∈ m) : ∃ e2 ∈ dinsert k v m, e2.1 = e.1 := by
  induction m with
  | nil => simp at h
  | cons f rest ih =>
      by_cases hf : f.1 = k
      · simp only [dinsert, hf, if_pos]
        rcases List.mem_cons.mp h with h | h
        · exact ⟨(k, v), List.mem_cons_self _ _, by rw [h, hf]⟩
        · exact ⟨e, List.mem_cons_of_mem _ h, rfl⟩
      · simp only [dinsert, hf, if_neg, not_false_iff]
        rcases List.mem_cons.mp h with h | h
        · exact ⟨f, List.mem_cons_self _ _, by rw [h]⟩
        · rcases ih h with ⟨e2, he2, hk⟩
          exact ⟨e2, List.mem_cons_of_mem _ he2, hk⟩

/-! ### Order facts for the emission sorts -/

theorem char_ext_of_toNat (a b : Char) (h : a.toNat = b.toNat) : a = b := by
  apply Char.ext
  apply UInt32.ext
  simpa [Char.toNat, UInt32.toNat] using h

theorem strLtB_trans : ∀ as bs cs : List Char,
    strLtB as bs = true → strLtB bs cs = true → strLtB as cs = true := by
  intro as
  induction as with
  | nil =>
      intro bs cs h1 h2
      cases bs with
      | nil => simp [strLtB] at h1
      | cons b bs2 =>
          cases cs with
          | nil => simp [strLtB] at h2
          | cons c cs2 => simp [strLtB]
  | cons a as2 ih =>
      intro bs cs h1 h2
      cases bs with
      | nil => simp [strLtB] at h1
      | cons b bs2 =>
          cases cs with
          | nil => simp [strLtB] at h2
          | cons c cs2 =>
              simp only [strLtB] at h1 h2 ⊢
              rcases Nat.lt_trichotomy a.toNat b.toNat with hab | hab | hab
              · rcases Nat.lt_trichotomy b.toNat c.toNat with hbc | hbc | hbc
                · simp [Nat.lt_trans hab hbc]
                · simp [hbc ▸ hab]
                · rw [if_neg (by omega), if_pos hbc] at h2
                  exact absurd h2 (by simp)
              · rw [if_neg (by omega), if_neg (by omega)] at h1
                rcases Nat.lt_trichotomy b.toNat c.toNat with hbc | hbc | hbc
                · simp [hab ▸ hbc]
                · rw [if_neg (by omega), if_neg (by omega)] at h2 ⊢
                  exact ih bs2 cs2 h1 h2
                · rw [if_neg (by omega), if_pos hbc] at h2
                  exact absurd h2 (by simp)
              · rw [if_neg (by omega), if_pos hab] at h1
                exact absurd h1 (by simp)

theorem strLtB_total : ∀ as bs : List Char,
    strLtB as bs = true ∨ as = bs ∨ strLtB bs as = true := by
  intro as
  induction as with
  | nil =>
      intro bs
      cases bs with
      | nil => right; left; rfl
      | cons b bs2 => left; simp [strLtB]
  | cons a as2 ih =>
      intro bs
      cases bs with
      | nil => right; right; simp [strLtB]
      | cons b bs2 =>
          rcases Nat.lt_trichotomy a.toNat b.toNat with hab | hab | hab
          · left; simp [strLtB, hab]
          · rcases ih bs2 with h | h | h
            · left
              simp only [strLtB]
              rw [if_neg (by omega), if_neg (by omega)]
              exact h
            · right; left
              rw [char_ext_of_toNat a b hab, h]
            · right; right
              simp only [strLtB]
              rw [if_neg (by omega), if_neg (by omega)]
              exact h
          · right; right; simp [strLtB, hab]

theorem string_ext (a b : String) (h : a.data = b.data) : a = b :=
  String.ext h

theorem pyStrLeB_trans (a b c : String) (h1 : pyStrLeB a b = true) (h2 : pyStrLeB b c = true) :
    pyStrLeB a c = true := by
  simp only [pyStrLeB, Bool.or_eq_true, decide_eq_true_eq] at h1 h2 ⊢
  rcases h1 with h1 | h1
  · rcases h2 with h2 | h2
    · exact Or.inl (strLtB_trans _ _ _ h1 h2)
    · exact Or.inl (h2 ▸ h1)
  · exact h1 ▸ h2

theorem pyStrLeB_total (a b : String) : pyStrLeB a b = true ∨ pyStrLeB b a = true := by
  simp only [pyStrLeB, Bool.or_eq_true, decide_eq_true_eq]
  rcases strLtB_total a.data b.data with h | h | h
  · exact Or.inl (Or.inl h)
  · exact Or.inl (Or.inr (string_ext a b h))
  · exact Or.inr (Or.inl h)

theorem routeStopLE_trans (a b c : (String × Int × String) × Option Int)
    (h1 : routeStopLE a b = true) (h2 : routeStopLE b c = true) : routeStopLE a c = true := by
  simp only [routeStopLE, Bool.or_eq_true, Bool.and_eq_true, decide_eq_true_eq] at h1 h2 ⊢
  rcases h1 with h1 | ⟨hr1, h1⟩
  · rcases h2 with h2 | ⟨hr2, _⟩
    · exact Or.inl (strLtB_trans _ _ _ h1 h2)
    · exact Or.inl (hr2 ▸ h1)
  · rcases h2 with h2 | ⟨hr2, h2⟩
    · exact Or.inl (hr1 ▸ h2)
    · refine Or.inr ⟨hr1.trans hr2, ?_⟩
      rcases h1 with h1 | ⟨hd1, h1⟩
      · rcases h2 with h2 | ⟨hd2, _⟩
        · exact Or.inl (h1.trans h2)
        · exact Or.inl (hd2 ▸ h1)
      · rcases h2 with h2 | ⟨hd2, h2⟩
        · exact Or.inl (hd1 ▸ h2)
        · refine Or.inr ⟨hd1.trans hd2, ?_⟩
          rcases h1 with h1 | ⟨hs1, h1⟩
          · rcases h2 with h2 | ⟨hs2, _⟩
            · exact Or.inl (h1.trans h2)
            · exact Or.inl (hs2 ▸ h1)
          · rcases h2 with h2 | ⟨hs2, h2⟩
            · exact Or.inl (hs1 ▸ h2)
            · exact Or.inr ⟨hs1.trans hs2, pyStrLeB_trans _ _ _ h1 h2⟩

theorem routeStopLE_total (a b : (String × Int × String) × Option Int) :
    routeStopLE a b = true ∨ routeStopLE b a = true := by
  simp only [routeStopLE, Bool.or_eq_true, Bool.and_eq_true, decide_eq_true_eq]
  rcases strLtB_total a.1.1.data b.1.1.data with h | h | h
  · exact Or.inl (Or.inl h)
  · have hr : a.1.1 = b.1.1 := string_ext _ _ h
    rcases Int.lt_trichotomy a.1.2.1 b.1.2.1 with hd | hd | hd
    · exact Or.inl (Or.inr ⟨hr, Or.inl hd⟩)
    · rcases Int.lt_trichotomy (seqOrSentinel a.2) (seqOrSentinel b.2) with hs | hs | hs
      · exact Or.inl (Or.inr ⟨hr, Or.inr ⟨hd, Or.inl hs⟩⟩)
      · rcases pyStrLeB_total a.1.2.2 b.1.2.2 with ht | ht
        · exact Or.inl (Or.inr ⟨hr, Or.inr ⟨hd, Or.inr ⟨hs, ht⟩⟩⟩)
        · exact Or.inr (Or.inr ⟨hr.symm, Or.inr ⟨hd.symm, Or.inr ⟨hs.symm, ht⟩⟩⟩)
      · exact Or.inr (Or.inr ⟨hr.symm, Or.inr ⟨hd.symm, Or.inl hs⟩⟩)
    · exact Or.inr (Or.inr ⟨hr.symm, Or.inl hd⟩)
  · exact Or.inr (Or.inl h)

instance : IsTrans ((String × Int × String) × Option Int) (fun a b => routeStopLE a b = true) :=
  ⟨routeStopLE_trans⟩

instance : IsTotal ((String × Int × String) × Option Int) (fun a b => routeStopLE a b = true) :=
  ⟨routeStopLE_total⟩

/-! ### C1: station clustering -/

/-- C1: for a processed stop row (non-blank raw id) in a non-bus mode with a
non-blank parent field, the canonical station id is the normalized parent (the
raw-to-station lookup maps the raw id to it) and the raw id lands in that
station's child set; in bus mode the canonical id is the raw id itself and
every emitted bus station row carries an empty child list. -/
theorem C1_station_clustering
    (mode : String) (st bst : StopState) (sid name lat lon parent : Value)
    (bm : List (String × Station)) :
    (mode ≠ "bus" → normalize_text sid ≠ "" → normalize_text parent ≠ "" →
      dget (normalize_text sid)
          (processStopRow mode st sid name lat lon parent).raw_stop_to_station
        = some (normalize_text parent) ∧
      ∃ s, dget (normalize_text parent)
          (processStopRow mode st sid name lat lon parent).station_map = some s ∧
        normalize_text sid ∈ s.child_stop_ids) ∧
    (normalize_text sid ≠ "" →
      dget (normalize_text sid)
          (processStopRow "bus" bst sid name lat lon parent).raw_stop_to_station
        = some (normalize_text sid)) ∧
    (∀ r ∈ stations_rows "bus" bm, r.child_stop_ids_json = []) := by
  refine ⟨?_, ?_, ?_⟩
  · intro hmode hsid hparent
    unfold processStopRow
    simp only [if_neg hsid, if_neg hmode, if_neg hparent]
    constructor
    · exact dget_dinsert_self _ _ _
    · refine ⟨_, dget_dinsert_self _ _ _, ?_⟩
      simp only [if_neg hmode]
      exact mem_insertSet_self _ _
  · intro hsid
    unfold processStopRow
    simp only [if_neg hsid, if_pos rfl]
    exact dget_dinsert_self _ _ _
  · intro r hr
    unfold stations_rows at hr
    rcases List.mem_map.mp hr with ⟨s, _hs, hrow⟩
    rw [← hrow]
    simp [stationRowOf]

/-- Witness for C1 at a concrete subway stop row with parent `101` and a
concrete bus row. -/
theorem C1_station_clustering_witness :
    (dget ("101N")
        (processStopRow ("subway") ⟨[], []⟩ (Value.str ("101N")) (Value.str ("Times Sq"))
          Value.null Value.null (Value.str ("101"))).raw_stop_to_station
      = some ("101") ∧
    ∃ s, dget ("101")
        (processStopRow ("subway") ⟨[], []⟩ (Value.str ("101N")) (Value.str ("Times Sq"))
          Value.null Value.null (Value.str ("101"))).station_map = some s ∧
      ("101N" : String) ∈ s.child_stop_ids) ∧
    dget ("404")
        (processStopRow ("bus") ⟨[], []⟩ (Value.str ("404")) (Value.str ("Main St"))
          Value.null Value.null (Value.str ("101"))).raw_stop_to_station
      = some ("404") := by
  have h := C1_station_clustering ("subway") ⟨[], []⟩ ⟨[], []⟩ (Value.str ("101N"))
    (Value.str ("Times Sq")) Value.null Value.null (Value.str ("101")) []
  have h2 := C1_station_clustering ("bus") ⟨[], []⟩ ⟨[], []⟩ (Value.str ("404"))
    (Value.str ("Main St")) Value.null Value.null (Value.str ("101")) []
  exact ⟨h.1 (by decide) (by decide) (by decide), h2.2.1 (by decide)⟩

/-! ### C2: route merge field precedence -/

/-- C2: merging an incoming route record over an existing one never replaces a
non-empty existing field (agency, short/long name, description, url, colors)
nor a present sort order, and replaces the route type exactly when the
existing type equals the mode default while the incoming one differs from it. -/
theorem C2_route_merge_precedence (d : Int) (ex inc : RouteRec) :
    (¬ optFalsy ex.agency_id → (mergeRoute d ex inc).agency_id = ex.agency_id) ∧
    (ex.route_short_name ≠ "" → (mergeRoute d ex inc).route_short_name = ex.route_short_name) ∧
    (ex.route_long_name ≠ "" → (mergeRoute d ex inc).route_long_name = ex.route_long_name) ∧
    (¬ optFalsy ex.route_desc → (mergeRoute d ex inc).route_desc = ex.route_desc) ∧
    (¬ optFalsy ex.route_url → (mergeRoute d ex inc).route_url = ex.route_url) ∧
    (¬ optFalsy ex.route_color → (mergeRoute d ex inc).route_color = ex.route_color) ∧
    (¬ optFalsy ex.route_text_color → (mergeRoute d ex inc).route_text_color = ex.route_text_color) ∧
    (ex.route_sort_order ≠ none → (mergeRoute d ex inc).route_sort_order = ex.route_sort_order) ∧
    ((mergeRoute d ex inc).route_type
      = if ex.route_type = d ∧ inc.route_type ≠ d then inc.route_type else ex.route_type) := by
  refine ⟨?_, ?_, ?_, ?_, ?_, ?_, ?_, ?_, ?_⟩ <;>
    first
      | (intro h
         simp only [mergeRoute]
         rw [if_neg]
         intro hc
         exact h hc.1)
      | rfl

/-- Witness for C2 at a fully populated existing record and a conflicting
incoming record, with mode default 1. -/
theorem C2_route_merge_precedence_witness :
    ((mergeRoute 1 ⟨"A1", some ("MTA"), "A", "Eighth Av Exp", some ("d"), 5, some ("u"),
        some ("BLUE"), some ("FFF"), some 0⟩
      ⟨"A1", some ("X"), "B", "Other", some ("e"), 1, some ("v"), some ("w"), some ("y"),
        some 7⟩).agency_id = some ("MTA")) ∧
    ((mergeRoute 1 ⟨"A1", some ("MTA"), "A", "Eighth Av Exp", some ("d"), 5, some ("u"),
        some ("BLUE"), some ("FFF"), some 0⟩
      ⟨"A1", some ("X"), "B", "Other", some ("e"), 1, some ("v"), some ("w"), some ("y"),
        some 7⟩).route_sort_order = some 0) ∧
    ((mergeRoute 1 ⟨"A1", some ("MTA"), "A", "Eighth Av Exp", some ("d"), 5, some ("u"),
        some ("BLUE"), some ("FFF"), some 0⟩
      ⟨"A1", some ("X"), "B", "Other", some ("e"), 1, some ("v"), some ("w"), some ("y"),
        some 7⟩).route_type = 5) := by
  have h := C2_route_merge_precedence 1
    ⟨"A1", some ("MTA"), "A", "Eighth Av Exp", some ("d"), 5, some ("u"), some ("BLUE"),
      some ("FFF"), some 0⟩
    ⟨"A1", some ("X"), "B", "Other", some ("e"), 1, some ("v"), some ("w"), some ("y"), some 7⟩
  refine ⟨h.1 (by decide), h.2.2.2.2.2.2.2.1 (by decide), ?_⟩
  rw [h.2.2.2.2.2.2.2.2]
  decide

/-! ### C3: minimum-preferring sequence accumulation -/

/-- Optional minimum: combine two optional sequence values preferring the
smaller concrete one. -/
def omin : Option Int → Option Int → Option Int
  | none, b => b
  | some a, none => some a
  | some a, some b => some (min a b)

/-- The minimum concrete value among a list of observations, `none` when every
observation is missing. -/
def minConc : List (Option Int) → Option Int
  | [] => none
  | nx :: rest => omin nx (minConc rest)

theorem updateSeq_eq_omin (st nx : Option Int) : updateSeq st nx = omin st nx := by
  cases st with
  | none => cases nx <;> rfl
  | some e =>
      cases nx with
      | none => rfl
      | some n =>
          simp only [updateSeq, omin]
          rcases lt_or_ge n e with h | h
          · rw [if_pos h, min_eq_right h.le]
          · rw [if_neg (not_lt.mpr h), min_eq_left h]

theorem omin_assoc (a b c : Option Int) : omin (omin a b) c = omin a (omin b c) := by
  cases a <;> cases b <;> cases c <;> simp [omin, min_assoc]

theorem foldl_updateSeq_eq (l : List (Option Int)) :
    ∀ st : Option Int, l.foldl updateSeq st = omin st (minConc l) := by
  induction l with
  | nil => intro st; cases st <;> rfl
  | cons nx rest ih =>
      intro st
      calc (nx :: rest).foldl updateSeq st = rest.foldl updateSeq (updateSeq st nx) := rfl
        _ = omin (updateSeq st nx) (minConc rest) := ih _
        _ = omin (omin st nx) (minConc rest) := by rw [updateSeq_eq_omin]
        _ = omin st (omin nx (minConc rest)) := omin_assoc _ _ _
        _ = omin st (minConc (nx :: rest)) := rfl

/-- C3: folding any sequence of observations for one assignment key through the
code's update rule stores exactly the minimum concrete observed value (absent
when only missing values were observed); an incoming missing value never
overwrites a stored concrete one, and a concrete value always replaces an
unset one. -/
theorem C3_assignment_minimum (l : List (Option Int)) (e n : Int) :
    l.foldl updateSeq none = minConc l ∧
    updateSeq (some e) none = some e ∧
    updateSeq none (some n) = some n := by
  refine ⟨?_, rfl, rfl⟩
  rw [foldl_updateSeq_eq]
  cases minConc l <;> rfl

/-! ### C4: theorems -/

/-- C4 is false as stated: the code replaces an absent sequence by the finite
sentinel 2^31 - 1 rather than by plus infinity.  With a concrete sequence
value of 2147483647 on stop `B` and an absent sequence on stop `A` of the same
route and direction, the emitted rows place the absent-sequence row strictly
before the concrete-sequence row (tie at the sentinel broken by stop id), so
the claimed order — absent strictly after every concrete value — is violated. -/
theorem C4_sentinel_counterexample :
    route_stops_rows_of c4Map =
      [⟨"A", 0, "A", none⟩, ⟨"A", 0, "B", some 2147483647⟩] ∧
    ¬ List.Pairwise (fun r s => rowSpecLE r s = true) (route_stops_rows_of c4Map) := by
  constructor
  · decide
  · decide

/-- C4 (amended): the emitted assignment rows are sorted ascending by
(route id, direction, sequence with an absent sequence replaced by the
sentinel 2^31 - 1, stop id); in particular for fixed route and direction the
rows are non-decreasing by (sequence-or-sentinel, stop id). -/
theorem C4_amended_emission_order (m : List ((String × Int × String) × Option Int)) :
    List.Pairwise (fun r s => rowSentinelLE r s = true) (route_stops_rows_of m) := by
  unfold route_stops_rows_of
  rw [List.pairwise_map]
  have hs := List.sorted_insertionSort (fun a b => routeStopLE a b = true) m
  refine hs.imp ?_
  intro a b hab
  simpa [rowSentinelLE, routeStopLE] using hab

/-! ### C5, C8: normalizer totality -/

/-- C5 is a code bug: the claim (and the source's own `try/except ValueError`)
intend `parse_int_or_none` never to raise, but `int(float(normalized))` raises
an uncaught `OverflowError` on any input parsing to an infinite float, such as
`inf` or `1e400`; other non-numeric inputs and NaN are handled to absent, and
the other normalizers are total. -/
theorem C5_parse_int_overflow_uncaught :
    parse_int_or_none (Value.str ("inf")) =
      .error "OverflowError: cannot convert float infinity to integer" ∧
    parse_int_or_none (Value.str ("1e400")) =
      .error "OverflowError: cannot convert float infinity to integer" ∧
    parse_int_or_none (Value.str ("abc")) = .ok none ∧
    parse_int_or_none (Value.str ("nan")) = .ok none ∧
    parse_int_or_none (Value.str ("3.0")) = .ok (some 3) ∧
    parse_int_or_none Value.null = .ok none ∧
    parse_numeric_or_none (Value.str ("inf")) = some ("inf") ∧
    parse_numeric_or_none (Value.str ("abc")) = none :=
  ⟨rfl, rfl, rfl, rfl, rfl, rfl, rfl, rfl⟩

/-- C8 is a code bug through the same slip: direction parsing maps `N`/`n` to
0, `S` to 1, integer-parses 0/1 to themselves and defaults everything else
(including blank) to 0 — but an input denoting an infinite float propagates
`parse_int_or_none`'s uncaught `OverflowError`, so the function neither
returns 0 there nor always yields 0 or 1. -/
theorem C8_direction_parsing :
    parse_direction_id (Value.str ("n")) = .ok 0 ∧
    parse_direction_id (Value.str ("S")) = .ok 1 ∧
    parse_direction_id (Value.str ("1")) = .ok 1 ∧
    parse_direction_id (Value.str ("0")) = .ok 0 ∧
    parse_direction_id Value.null = .ok 0 ∧
    parse_direction_id (Value.str ("2")) = .ok 0 ∧
    parse_direction_id (Value.str ("Infinity")) =
      .error "OverflowError: cannot convert float infinity to integer" :=
  ⟨rfl, rfl, rfl, rfl, rfl, rfl, rfl⟩

/-! ### C6: zero-valued numeric fields -/

/-- Route row whose type and sort-order fields are both the string `0`. -/
def c6Row : RouteRow :=
  ⟨Value.str ("R1"), Value.null, Value.null, Value.null, Value.null,
    Value.str ("0"), Value.null, Value.null, Value.null, Value.str ("0")⟩

/-- C6 fails as stated for the route type: building the incoming record for a
row whose `route_type` field parses to 0 stores the mode default (here 1,
subway) instead of 0, because the source computes
`parse_int_or_none(...) or MODE_DEFAULT_ROUTE_TYPE[mode]` and 0 is falsy in
Python; the sort order 0 of the same row is kept. -/
theorem C6_zero_type_counterexample :
    routeIncoming 1 c6Row =
      .ok (some ⟨"R1", none, "", "", none, 1, none, none, none, some 0⟩) := rfl

/-- C6 (amended): merge emptiness is absent/empty-string, never general
falsiness — a sort order parsing to 0 is stored as a present 0 and a present
sort order 0 survives any merge — but the route type is coerced through
Python `or` before the merge: a parsed type of 0 is replaced by the mode
default already when the incoming row is built. -/
theorem C6_amended_zero_handling (d : Int) (row : RouteRow) (rec ex inc : RouteRec)
    (h : routeIncoming d row = .ok (some rec)) :
    (parse_int_or_none row.route_sort_order = .ok (some 0) → rec.route_sort_order = some 0) ∧
    (parse_int_or_none row.route_type = .ok (some 0) → rec.route_type = d) ∧
    (ex.route_sort_order = some 0 → (mergeRoute d ex inc).route_sort_order = some 0) := by
  unfold routeIncoming at h
  by_cases hrid : normalize_route_id row.route_id = ""
  · rw [if_pos hrid] at h
    simp [pure, Except.pure] at h
  · rw [if_neg hrid] at h
    cases hrt : parse_int_or_none row.route_type with
    | error e =>
        rw [hrt] at h
        simp [bind, Except.bind] at h
    | ok rt =>
        cases hrso : parse_int_or_none row.route_sort_order with
        | error e =>
            rw [hrt, hrso] at h
            simp [bind, Except.bind] at h
        | ok rso =>
            rw [hrt, hrso] at h
            simp only [bind, Except.bind, pure, Except.pure, Except.ok.injEq,
              Option.some.injEq] at h
            refine ⟨?_, ?_, ?_⟩
            · intro hq
              injection hq with hq
              subst hq
              rw [← h]
            · intro hq
              injection hq with hq
              subst hq
              rw [← h]
              simp
            · intro hex
              simp only [mergeRoute]
              rw [if_neg]
              · exact hex
              · intro hc
                rw [hex] at hc
                exact absurd hc.1 (by simp)

/-- Witness for the amended C6 at the concrete zero-typed row and a concrete
existing record with sort order 0. -/
theorem C6_amended_zero_handling_witness :
    (⟨"R1", none, "", "", none, 1, none, none, none, some 0⟩ : RouteRec).route_sort_order
        = some 0 ∧
    (⟨"R1", none, "", "", none, 1, none, none, none, some 0⟩ : RouteRec).route_type = 1 ∧
    (mergeRoute 1 ⟨"B2", some ("MTA"), "B", "Brighton", none, 1, none, none, none, some 0⟩
        ⟨"B2", none, "", "", none, 2, none, none, none, some 9⟩).route_sort_order = some 0 := by
  have h := C6_amended_zero_handling 1 c6Row
    ⟨"R1", none, "", "", none, 1, none, none, none, some 0⟩
    ⟨"B2", some ("MTA"), "B", "Brighton", none, 1, none, none, none, some 0⟩
    ⟨"B2", none, "", "", none, 2, none, none, none, some 9⟩ rfl
  exact ⟨h.1 rfl, h.2.1 rfl, h.2.2 rfl⟩

/-! ### C7: reference-resolution failures and the warning report -/

theorem foldlM_except_inv {σ α : Type} (P : σ → Prop) (f : σ → α → Except String σ)
    (hstep : ∀ s a s2, P s → f s a = .ok s2 → P s2) :
    ∀ (l : List α) (s s2 : σ), P s → l.foldlM f s = .ok s2 → P s2 := by
  intro l
  induction l with
  | nil =>
      intro s s2 hP h
      simp only [List.foldlM_nil, pure, Except.pure, Except.ok.injEq] at h
      exact h ▸ hP
  | cons a l2 ih =>
      intro s s2 hP h
      rw [List.foldlM_cons] at h
      cases hf : f s a with
      | error e => rw [hf] at h; simp [bind, Except.bind] at h
      | ok s1 =>
          rw [hf] at h
          simp only [bind, Except.bind] at h
          exact ih s1 s2 (hstep s a s1 hP hf) h

theorem processStopTimeRow_nodup (ctx : SeqCtx) (st : SeqState) (row : StopTimeRow)
    (st2 : SeqState) (hP : st.missing_stop_ids.Nodup)
    (h : processStopTimeRow ctx st row = .ok st2) : st2.missing_stop_ids.Nodup := by
  unfold processStopTimeRow at h
  by_cases hblank : normalize_text row.trip_id = "" ∨ normalize_text row.stop_id = ""
  · rw [if_pos hblank] at h
    simp only [pure, Except.pure, Except.ok.injEq] at h
    exact h ▸ hP
  · rw [if_neg hblank] at h
    cases htm : dget (normalize_text row.trip_id) ctx.trip_map with
    | none =>
        rw [htm] at h
        simp only [pure, Except.pure, Except.ok.injEq] at h
        rw [← h]
        exact hP
    | some rd =>
        rw [htm] at h
        dsimp only at h
        cases hsm : dget ((dget (normalize_text row.stop_id) ctx.raw_stop_to_station).getD
            (normalize_text row.stop_id)) ctx.station_map with
        | none =>
            rw [hsm] at h
            simp only [pure, Except.pure, Except.ok.injEq] at h
            rw [← h]
            exact nodup_insertSet _ _ hP
        | some s =>
            rw [hsm] at h
            dsimp only at h
            cases hs : parse_int_or_none row.stop_sequence with
            | error e => rw [hs] at h; simp [bind, Except.bind] at h
            | ok nx =>
                rw [hs] at h
                simp only [bind, Except.bind, pure, Except.pure, Except.ok.injEq] at h
                rw [← h]
                exact hP

theorem processDataset_nodup (mode : String) (st : ModeState) (ds : Dataset) (st2 : ModeState)
    (hP : st.missing_stop_ids.Nodup) (h : processDataset mode st ds = .ok st2) :
    st2.missing_stop_ids.Nodup := by
  unfold processDataset at h
  dsimp only at h
  cases hrm : ds.routes.foldlM (processRouteRow mode) st.route_map with
  | error e => rw [hrm] at h; simp [bind, Except.bind] at h
  | ok rm =>
      rw [hrm] at h
      cases htm : ds.trips.foldlM processTripRow [] with
      | error e => rw [htm] at h; simp [bind, Except.bind] at h
      | ok tm =>
          rw [htm] at h
          simp only [bind, Except.bind] at h
          cases hq : ds.stop_times.foldlM
              (processStopTimeRow ⟨tm, (processStops mode ⟨st.station_map, []⟩ ds.stops).raw_stop_to_station,
                (processStops mode ⟨st.station_map, []⟩ ds.stops).station_map⟩)
              ⟨st.route_stop_map, st.missing_trip_refs, st.missing_stop_ids⟩ with
          | error e => rw [hq] at h; simp at h
          | ok q =>
              rw [hq] at h
              simp only [bind, Except.bind, pure, Except.pure, Except.ok.injEq] at h
              have := foldlM_except_inv (fun s : SeqState => s.missing_stop_ids.Nodup) _
                (fun s a s2 hs hstep => processStopTimeRow_nodup _ s a s2 hs hstep)
                ds.stop_times ⟨st.route_stop_map, st.missing_trip_refs, st.missing_stop_ids⟩ q hP hq
              rw [← h]
              exact this

/-- C7: a stop-time row with a non-blank trip id absent from the trip table
bumps the missing-trip counter by exactly one and changes nothing else (no
assignment); a row resolving to a station absent from the station map adds the
raw stop id to the missing-stop-id set and changes nothing else; the per-mode
report carries the missing-trip count, the distinct-missing-stop count (the
accumulated set stays duplicate-free) and a sample of at most 50 ids. -/
theorem C7_missing_reference_accounting :
    (∀ (ctx : SeqCtx) (st : SeqState) (row : StopTimeRow),
      normalize_text row.trip_id ≠ "" → normalize_text row.stop_id ≠ "" →
      dget (normalize_text row.trip_id) ctx.trip_map = none →
      processStopTimeRow ctx st row
        = .ok { st with missing_trip_refs := st.missing_trip_refs + 1 }) ∧
    (∀ (ctx : SeqCtx) (st : SeqState) (row : StopTimeRow) (rd : String × Int),
      normalize_text row.trip_id ≠ "" → normalize_text row.stop_id ≠ "" →
      dget (normalize_text row.trip_id) ctx.trip_map = some rd →
      dget ((dget (normalize_text row.stop_id) ctx.raw_stop_to_station).getD
          (normalize_text row.stop_id)) ctx.station_map = none →
      processStopTimeRow ctx st row
        = .ok { st with missing_stop_ids := insertSet (normalize_text row.stop_id) st.missing_stop_ids }) ∧
    (∀ (mode : String) (st : ModeState),
      (emitResult mode st).warn_missingTripRefs = st.missing_trip_refs ∧
      (emitResult mode st).warn_missingStopRefs = st.missing_stop_ids.length ∧
      (emitResult mode st).warn_sampleMissingStopIds = (sortStrings st.missing_stop_ids).take 50 ∧
      (emitResult mode st).warn_sampleMissingStopIds.length ≤ 50) ∧
    (∀ (mode : String) (datasets : List Dataset) (st : ModeState),
      datasets.foldlM (processDataset mode) initModeState = .ok st →
      st.missing_stop_ids.Nodup) := by
  refine ⟨?_, ?_, ?_, ?_⟩
  · intro ctx st row ht hs htm
    unfold processStopTimeRow
    rw [if_neg (by simp [ht, hs]), htm]
    rfl
  · intro ctx st row rd ht hs htm hsm
    unfold processStopTimeRow
    rw [if_neg (by simp [ht, hs]), htm]
    dsimp only
    rw [hsm]
    rfl
  · intro mode st
    refine ⟨rfl, rfl, rfl, ?_⟩
    simp only [emitResult]
    rw [List.length_take]
    exact min_le_left _ _
  · intro mode datasets st h
    exact foldlM_except_inv (fun s : ModeState => s.missing_stop_ids.Nodup) _
      (fun s a s2 hs hstep => processDataset_nodup mode s a s2 hs hstep)
      datasets initModeState st (by simp [initModeState]) h

/-- Witness for C7: a concrete row citing an unknown trip, a concrete row with
an unresolvable stop, a concrete report, and the empty dataset list. -/
theorem C7_missing_reference_accounting_witness :
    processStopTimeRow ⟨[], [], []⟩ ⟨[], 0, []⟩ ⟨Value.str ("t9"), Value.str ("s1"), Value.null⟩
      = .ok ⟨[], 1, []⟩ ∧
    processStopTimeRow ⟨[(("t1"), (("A"), (0 : Int)))], [], []⟩
        ⟨[], 0, []⟩ ⟨Value.str ("t1"), Value.str ("s1"), Value.null⟩
      = .ok ⟨[], 0, [("s1")]⟩ ∧
    (emitResult ("subway") initModeState).warn_missingTripRefs = 0 ∧
    (emitResult ("subway") initModeState).warn_sampleMissingStopIds.length ≤ 50 ∧
    (([] : List Dataset).foldlM (processDataset ("subway")) initModeState = .ok initModeState →
      initModeState.missing_stop_ids.Nodup) := by
  have h := C7_missing_reference_accounting
  refine ⟨?_, ?_, (h.2.2.1 ("subway") initModeState).1, (h.2.2.1 ("subway") initModeState).2.2.2, ?_⟩
  · exact h.1 ⟨[], [], []⟩ ⟨[], 0, []⟩ ⟨Value.str ("t9"), Value.str ("s1"), Value.null⟩
      (by decide) (by decide) rfl
  · exact h.2.1 ⟨[(("t1"), (("A"), (0 : Int)))], [], []⟩
      ⟨[], 0, []⟩ ⟨Value.str ("t1"), Value.str ("s1"), Value.null⟩ (("A"), (0 : Int))
      (by decide) (by decide) rfl rfl
  · exact fun hh => h.2.2.2 ("subway") [] initModeState hh

/-! ### C9: sink transaction granularity -/

/-- C9 fails as stated: all modes' writes share `main`'s single transaction,
so when the second mode's write fails, the first mode's successful write does
not remain committed — the whole run rolls back to the pre-run state (even the
initial clear is undone). -/
theorem C9_rollback_counterexample :
    mainRun ([("preexisting")]) (fun _ => .ok ([] : List String))
        (fun db => .ok (db ++ [("subway-station-row")]))
        (fun _ => .error ("sink failure"))
        (fun db => .ok db) []
      = [("preexisting")] ∧
    ("subway-station-row") ∉
      mainRun ([("preexisting")]) (fun _ => .ok ([] : List String))
        (fun db => .ok (db ++ [("subway-station-row")]))
        (fun _ => .error ("sink failure"))
        (fun db => .ok db) [] := by
  constructor
  · rfl
  · decide

/-- C9 (amended): the global clear and every mode's write run inside one
transaction: any sink failure anywhere rolls the entire run back to the
initial database state (so no partially replaced state is ever observable,
and a fortiori each mode's clear-plus-write is atomic), while on success the
final state of the whole sequence is committed; earlier modes' writes are
never committed separately. -/
theorem C9_amended_single_transaction {σ ε : Type} (db : σ)
    (clearAll wSubway wLirr wMnr : σ → Except ε σ) (wBus : List (σ → Except ε σ)) :
    (∀ e, runSteps db (mainSteps clearAll wSubway wLirr wMnr wBus) = .error e →
      mainRun db clearAll wSubway wLirr wMnr wBus = db) ∧
    (∀ db2, runSteps db (mainSteps clearAll wSubway wLirr wMnr wBus) = .ok db2 →
      mainRun db clearAll wSubway wLirr wMnr wBus = db2) := by
  constructor
  · intro e h
    unfold mainRun importTransaction
    rw [h]
  · intro db2 h
    unfold mainRun importTransaction
    rw [h]

/-- Witness for the amended C9: a failing run returns the initial state, a
fully successful run returns the final composed state. -/
theorem C9_amended_single_transaction_witness :
    @mainRun (List Nat) String ([(0 : Nat)]) (fun _ => .ok ([] : List Nat))
        (fun d => .ok (d ++ [1])) (fun _ => .error ("boom")) (fun d => .ok d) []
      = [(0 : Nat)] ∧
    @mainRun (List Nat) String ([(0 : Nat)]) (fun _ => .ok ([] : List Nat))
        (fun d => .ok (d ++ [1])) (fun d => .ok (d ++ [2])) (fun d => .ok (d ++ [3])) []
      = [1, 2, 3] := by
  constructor
  · exact (@C9_amended_single_transaction (List Nat) String [(0 : Nat)]
      (fun _ => .ok ([] : List Nat)) (fun d => .ok (d ++ [1])) (fun _ => .error ("boom"))
      (fun d => .ok d) []).1 ("boom") rfl
  · exact (@C9_amended_single_transaction (List Nat) String [(0 : Nat)]
      (fun _ => .ok ([] : List Nat)) (fun d => .ok (d ++ [1])) (fun d => .ok (d ++ [2]))
      (fun d => .ok (d ++ [3])) []).2 [1, 2, 3] rfl

/-! ### C10: referential integrity of emitted assignment rows -/

/-- Every station-map entry's station carries the entry's key as its id. -/
def stationKeyInv (sm : List (String × Station)) : Prop :=
  ∀ e ∈ sm, e.2.stop_id = e.1

/-- Every key of the first station map still keys an entry of the second. -/
def keysSurvive (m1 m2 : List (String × Station)) : Prop :=
  ∀ e ∈ m1, ∃ e2 ∈ m2, e2.1 = e.1

/-- Every assignment key's station id keys some station-map entry. -/
def assignInv (sm : List (String × Station))
    (rsm : List ((String × Int × String) × Option Int)) : Prop :=
  ∀ e ∈ rsm, ∃ e2 ∈ sm, e2.1 = e.1.2.2

theorem keysSurvive_refl (m : List (String × Station)) : keysSurvive m m :=
  fun e he => ⟨e, he, rfl⟩

theorem keysSurvive_trans {m1 m2 m3 : List (String × Station)}
    (h1 : keysSurvive m1 m2) (h2 : keysSurvive m2 m3) : keysSurvive m1 m3 := by
  intro e he
  obtain ⟨e2, he2, hk⟩ := h1 e he
  obtain ⟨e3, he3, hk2⟩ := h2 e2 he2
  exact ⟨e3, he3, hk2.trans hk⟩

theorem keysSurvive_dinsert (k : String) (v : Station) (m : List (String × Station)) :
    keysSurvive m (dinsert k v m) :=
  fun e he => dinsert_key_mem k v m e he

/-- The stops loop either leaves the station map unchanged (blank stop id) or
writes one station under a key that equals the station's recorded id. -/
theorem processStopRow_station_map_cases (mode : String) (st : StopState)
    (v1 v2 v3 v4 v5 : Value) (hinv : stationKeyInv st.station_map) :
    (processStopRow mode st v1 v2 v3 v4 v5).station_map = st.station_map ∨
    ∃ k s, s.stop_id = k ∧
      (processStopRow mode st v1 v2 v3 v4 v5).station_map = dinsert k s st.station_map := by
  unfold processStopRow
  by_cases hraw : normalize_text v1 = ""
  · rw [if_pos hraw]
    exact Or.inl rfl
  · rw [if_neg hraw]
    dsimp only
    right
    refine ⟨_, _, ?_, rfl⟩
    by_cases hb : mode = "bus"
    · simp only [hb, if_pos]
      cases hd : dget (normalize_text v1) st.station_map with
      | none => rfl
      | some s0 => exact hinv _ (dget_mem _ _ _ hd)
    · simp only [hb, if_neg, if_false]
      cases hd : dget (if normalize_text v5 = "" then normalize_text v1 else normalize_text v5)
          st.station_map with
      | none => rfl
      | some s0 => exact hinv _ (dget_mem _ _ _ hd)

theorem processStopRow_preserves (mode : String) (st : StopState) (v1 v2 v3 v4 v5 : Value)
    (hinv : stationKeyInv st.station_map) :
    stationKeyInv (processStopRow mode st v1 v2 v3 v4 v5).station_map ∧
    keysSurvive st.station_map (processStopRow mode st v1 v2 v3 v4 v5).station_map := by
  rcases processStopRow_station_map_cases mode st v1 v2 v3 v4 v5 hinv with h | ⟨k, s, hks, h⟩
  · rw [h]
    exact ⟨hinv, keysSurvive_refl _⟩
  · rw [h]
    constructor
    · intro e he
      rcases mem_dinsert k s _ e he with he2 | he2
      · rw [he2]
        exact hks
      · exact hinv e he2
    · exact keysSurvive_dinsert k s _

theorem processStops_preserves (mode : String) (rows : List StopRow) :
    ∀ st : StopState, stationKeyInv st.station_map →
      stationKeyInv (processStops mode st rows).station_map ∧
      keysSurvive st.station_map (processStops mode st rows).station_map := by
  induction rows with
  | nil =>
      intro st h
      exact ⟨h, keysSurvive_refl _⟩
  | cons r rs ih =>
      intro st h
      have h1 := processStopRow_preserves mode st r.stop_id r.stop_name r.stop_lat r.stop_lon
        r.parent_station h
      have h2 := ih (processStopRow mode st r.stop_id r.stop_name r.stop_lat r.stop_lon
        r.parent_station) h1.1
      exact ⟨h2.1, keysSurvive_trans h1.2 h2.2⟩

theorem processStopTimeRow_assignInv (ctx : SeqCtx) (st : SeqState) (row : StopTimeRow)
    (st2 : SeqState) (hP : assignInv ctx.station_map st.route_stop_map)
    (h : processStopTimeRow ctx st row = .ok st2) :
    assignInv ctx.station_map st2.route_stop_map := by
  unfold processStopTimeRow at h
  by_cases hblank : normalize_text row.trip_id = "" ∨ normalize_text row.stop_id = ""
  · rw [if_pos hblank] at h
    simp only [pure, Except.pure, Except.ok.injEq] at h
    exact h ▸ hP
  · rw [if_neg hblank] at h
    cases htm : dget (normalize_text row.trip_id) ctx.trip_map with
    | none =>
        rw [htm] at h
        simp only [pure, Except.pure, Except.ok.injEq] at h
        rw [← h]
        exact hP
    | some rd =>
        rw [htm] at h
        dsimp only at h
        cases hsm : dget ((dget (normalize_text row.stop_id) ctx.raw_stop_to_station).getD
            (normalize_text row.stop_id)) ctx.station_map with
        | none =>
            rw [hsm] at h
            simp only [pure, Except.pure, Except.ok.injEq] at h
            rw [← h]
            exact hP
        | some s0 =>
            rw [hsm] at h
            dsimp only at h
            cases hs : parse_int_or_none row.stop_sequence with
            | error e =>
                rw [hs] at h
                simp [bind, Except.bind] at h
            | ok nx =>
                rw [hs] at h
                simp only [bind, Except.bind, pure, Except.pure, Except.ok.injEq] at h
                rw [← h]
                intro e he
                dsimp only at he
                rcases mem_dinsert _ _ _ e he with he2 | he2
                · rw [he2]
                  exact ⟨_, dget_mem _ _ _ hsm, rfl⟩
                · exact hP e he2

/-- The mode-level invariant carried across datasets. -/
def modeInv (st : ModeState) : Prop :=
  stationKeyInv st.station_map ∧ assignInv st.station_map st.route_stop_map

theorem processDataset_modeInv (mode : String) (st : ModeState) (ds : Dataset)
    (st2 : ModeState) (hP : modeInv st) (h : processDataset mode st ds = .ok st2) :
    modeInv st2 := by
  unfold processDataset at h
  dsimp only at h
  cases hrm : ds.routes.foldlM (processRouteRow mode) st.route_map with
  | error e =>
      rw [hrm] at h
      simp [bind, Except.bind] at h
  | ok rm =>
      rw [hrm] at h
      cases htm : ds.trips.foldlM processTripRow [] with
      | error e =>
          rw [htm] at h
          simp [bind, Except.bind] at h
      | ok tm =>
          rw [htm] at h
          simp only [bind, Except.bind] at h
          cases hq : ds.stop_times.foldlM
              (processStopTimeRow
                ⟨tm, (processStops mode ⟨st.station_map, []⟩ ds.stops).raw_stop_to_station,
                  (processStops mode ⟨st.station_map, []⟩ ds.stops).station_map⟩)
              ⟨st.route_stop_map, st.missing_trip_refs, st.missing_stop_ids⟩ with
          | error e =>
              rw [hq] at h
              simp at h
          | ok q =>
              rw [hq] at h
              simp only [bind, Except.bind, pure, Except.pure, Except.ok.injEq] at h
              rw [← h]
              have hstops := processStops_preserves mode ds.stops ⟨st.station_map, []⟩ hP.1
              refine ⟨hstops.1, ?_⟩
              have hinit : assignInv
                  (processStops mode ⟨st.station_map, []⟩ ds.stops).station_map
                  st.route_stop_map := by
                intro e he
                obtain ⟨e2, he2, hk⟩ := hP.2 e he
                obtain ⟨e3, he3, hk2⟩ := hstops.2 e2 he2
                exact ⟨e3, he3, hk2.trans hk⟩
              exact foldlM_except_inv
                (fun s : SeqState => assignInv
                  (processStops mode ⟨st.station_map, []⟩ ds.stops).station_map s.route_stop_map)
                _
                (fun s a s2 hs hstep => processStopTimeRow_assignInv _ s a s2 hs hstep)
                ds.stop_times ⟨st.route_stop_map, st.missing_trip_refs, st.missing_stop_ids⟩ q
                hinit hq

theorem process_mode_modeInv (mode : String) (datasets : List Dataset) (st : ModeState)
    (h : datasets.foldlM (processDataset mode) initModeState = .ok st) : modeInv st := by
  refine foldlM_except_inv modeInv _
    (fun s a s2 hs hstep => processDataset_modeInv mode s a s2 hs hstep)
    datasets initModeState st ⟨?_, ?_⟩ h
  · intro e he
    simp [initModeState] at he
  · intro e he
    simp [initModeState] at he

/-- C10: in any successful processing pass, every emitted assignment row's
station id equals the station id of some emitted station row of the same
pass: an assignment key is recorded only after its resolved station id is
found in the station map, and the station map only grows during the pass. -/
theorem C10_referential_integrity (mode : String) (datasets : List Dataset) (res : ModeResult)
    (h : process_mode mode datasets = .ok res) :
    ∀ r ∈ res.route_stops_rows, ∃ srow ∈ res.stations_rows, srow.stop_id = r.stop_id := by
  unfold process_mode at h
  cases hst : datasets.foldlM (processDataset mode) initModeState with
  | error e =>
      rw [hst] at h
      simp [bind, Except.bind] at h
  | ok st =>
      rw [hst] at h
      simp only [bind, Except.bind, pure, Except.pure, Except.ok.injEq] at h
      have hinv := process_mode_modeInv mode datasets st hst
      subst h
      intro r hr
      unfold emitResult at hr
      dsimp only at hr
      unfold route_stops_rows_of at hr
      obtain ⟨e, he, hre⟩ := List.mem_map.mp hr
      have he2 : e ∈ st.route_stop_map := (List.perm_insertionSort _ _).mem_iff.mp he
      obtain ⟨e2, he3, hk⟩ := hinv.2 e he2
      refine ⟨stationRowOf mode e2.2, ?_, ?_⟩
      · unfold emitResult
        dsimp only
        unfold stations_rows
        apply List.mem_map.mpr
        refine ⟨e2.2, ?_, rfl⟩
        apply (List.perm_insertionSort _ _).mem_iff.mpr
        exact List.mem_map.mpr ⟨e2, he3, rfl⟩
      · have h1 : (stationRowOf mode e2.2).stop_id = e2.2.stop_id := rfl
        have h2 : e2.2.stop_id = e2.1 := hinv.1 e2 he3
        rw [h1, h2, hk, ← hre]

/-- Concrete single-dataset subway feed for the C10 witness. -/
def c10Dataset : Dataset :=
  { stops := [⟨Value.str ("101N"), Value.str ("Times Sq"), Value.null, Value.null,
      Value.str ("101")⟩],
    routes := [⟨Value.str ("A"), Value.null, Value.null, Value.null, Value.null, Value.null,
      Value.null, Value.null, Value.null, Value.null⟩],
    trips := [⟨Value.str ("t1"), Value.str ("A"), Value.str ("N")⟩],
    stop_times := [⟨Value.str ("t1"), Value.str ("101N"), Value.str ("1")⟩] }

/-- The mode result of the concrete run behind the C10 witness. -/
def c10Result : ModeResult :=
  match process_mode ("subway") [c10Dataset] with
  | .ok r => r
  | .error _ => ⟨[], [], [], 0, 0, 0, 0, 0, [], []⟩

/-- Witness for C10 at the concrete feed. -/
theorem C10_referential_integrity_witness :
    process_mode ("subway") [c10Dataset] = .ok c10Result ∧
    ∀ r ∈ c10Result.route_stops_rows, ∃ srow ∈ c10Result.stations_rows,
      srow.stop_id = r.stop_id := by
  have hok : process_mode ("subway") [c10Dataset] = .ok c10Result := rfl
  exact ⟨hok, C10_referential_integrity ("subway") [c10Dataset] c10Result hok⟩

end MtaImport
